import Mathlib

/-!
Verification of the browser client core of the Legal-Contract RAG repository:
the workspace binding store (`utils/namespace.ts`), the batch upload
orchestrator (`components/ContractUpload.tsx`, `onDrop` / `removeFile` /
`handleNamespaceChange`) and the query client (`components/ContractQuery.tsx`,
`handleSubmit`, with the api service `uploadContract` / `queryContracts`).

The embedding is a shallow one: React `useState` state becomes explicit state
records threaded through pure functions, the network becomes an explicit
function argument returning `Except`, and the sequential `await` loop of
`onDrop` becomes a structurally recursive function that also emits an event
trace (append / request / response / update / globalMsg) so that temporal
claims (ordering, at-most-one in-flight request) can be stated.
-/

namespace ContractRag

/-- A JS `File` handle. `ref` models object reference identity (`===`):
two files selected by distinct user actions have distinct `ref` even when
`name` (and content) coincide. -/
structure FileH where
  ref : Nat
  name : String
deriving DecidableEq

/-- Status tag of `FileUploadStatus` in ContractUpload.tsx: one of
`uploading`, `success`, `error` (spec names: Pending / Success / Failed). -/
inductive Status
  | uploading
  | success
  | error
deriving DecidableEq

/-- The `interface FileUploadStatus` of ContractUpload.tsx lines 13-18. -/
structure FileUploadStatus where
  file : FileH
  status : Status
  message : Option String
  chunksCreated : Option Nat
deriving DecidableEq

/-- Per-item status in the backend upload response
(field status of `UploadResult`, either `success` or `error`, in the api
service). -/
inductive RespStatus
  | success
  | error
deriving DecidableEq

/-- The `interface UploadResult` of the api service, with fields
filename, status, optional chunks_created, optional message.  `filename` is optional
here because the client-side fallback literal in `onDrop` (line 64-67)
builds a result without a `filename` key. -/
structure UploadResult where
  filename : Option String
  status : RespStatus
  chunks_created : Option Nat
  message : Option String
deriving DecidableEq

/-- The `interface UploadResponse` of the api service, with fields message,
total_chunks, results.  `results` is `Option` because `onDrop` reads it as
`result.results?.[0]`, anticipating an absent array. -/
structure UploadResponse where
  message : String
  total_chunks : Nat
  results : Option (List UploadResult)
deriving DecidableEq

/-- A rejected upload request as caught in `onDrop` (lines 89-101):
`error.response?.data?.detail` and `error.message`. -/
structure UploadFailure where
  responseDetail : Option String
  message : String
deriving DecidableEq

/-- JS `a || b` where `a` is an optional string: falls back to `b` when `a`
is absent or empty (both are falsy). -/
def jsOrElse (a : Option String) (b : String) : String :=
  match a with
  | some s => if s = "" then b else s
  | none => b

/-- The fileResult fallback of ContractUpload.tsx lines 64-67: it is
`result.results?.[0]`, or else a literal with status success and
chunks_created equal to `result.total_chunks`; so the first per-item result
when the `results` array exists and is non-empty, otherwise a synthetic
success carrying `total_chunks`. -/
def fileResult (r : UploadResponse) : UploadResult :=
  match r.results with
  | some (x :: _) => x
  | _ =>
    { filename := none, status := .success,
      chunks_created := some r.total_chunks, message := none }

/-- JS template interpolation of an optional number
(`${fileResult.chunks_created}` renders `undefined` when absent). -/
def chunksStr (c : Option Nat) : String :=
  match c with
  | some n => toString n
  | none => "undefined"

/-- The success message of `onDrop` line 82. -/
def successText (c : Option Nat) : String :=
  "Processed successfully! " ++ chunksStr c ++ " sections analyzed."

/-- The spread update applied by `onDrop` (lines 75-88) to the batch item
matching the file, when the request resolved with response `r`. -/
def applyResolved (r : UploadResponse) (x : FileUploadStatus) : FileUploadStatus :=
  { x with
    status := match (fileResult r).status with
      | .success => Status.success
      | .error => Status.error,
    message := match (fileResult r).status with
      | .success => some (successText (fileResult r).chunks_created)
      | .error => (fileResult r).message,
    chunksCreated := (fileResult r).chunks_created }

/-- The spread update applied by the `catch` branch of `onDrop`
(lines 89-101) when the request rejected with `e`:
`message: error.response?.data?.detail || error.message`. -/
def applyRejected (e : UploadFailure) (x : FileUploadStatus) : FileUploadStatus :=
  { x with
    status := Status.error,
    message := some (jsOrElse e.responseDetail e.message) }

/-- Outcome of one `await uploadContract(file, namespace)` applied to an item. -/
def applyOutcome (res : Except UploadFailure UploadResponse)
    (x : FileUploadStatus) : FileUploadStatus :=
  match res with
  | .ok r => applyResolved r x
  | .error e => applyRejected e x

/-- Counter `successCount` is incremented (line 69-70) exactly when the request
resolved and the per-file status is `success`; every other outcome
increments `errorCount`. -/
def isSuccessOutcome (res : Except UploadFailure UploadResponse) : Bool :=
  match res with
  | .ok r =>
    match (fileResult r).status with
    | .success => true
    | .error => false
  | .error _ => false

/-- The `{ type, text }` shape of `globalMessage`. -/
inductive MsgType
  | success
  | error
deriving DecidableEq

/-- Payload of `globalMessage` (ContractUpload.tsx line 22). -/
structure GlobalMessage where
  type : MsgType
  text : String
deriving DecidableEq

/-- Component state of ContractUpload: the `files` batch, the session-level
`globalMessage`, and the `namespaceError` field. -/
structure UploadState where
  files : List FileUploadStatus
  globalMessage : Option GlobalMessage
  namespaceError : String
deriving DecidableEq

/-- Observable events of one `onDrop` run, in program order: the batch append
(`setFiles(prev => [...prev, ...newFiles])`), each upload request being
issued, its response resolving, the per-item status update, and the final
session message. -/
inductive Event
  | append (items : List FileUploadStatus)
  | request (f : FileH) (ns : String)
  | response (f : FileH)
  | update (f : FileH) (s : Status)
  | globalMsg (m : GlobalMessage)
deriving DecidableEq

/-- JS `String.prototype.trim()`: strip whitespace from both ends. -/
def jsTrim (s : String) : String :=
  ⟨((s.data.dropWhile Char.isWhitespace).reverse.dropWhile Char.isWhitespace).reverse⟩

/-- A freshly appended batch item: the file with status `uploading` and no
message or chunk count (lines 49-52). -/
def mkPending (f : FileH) : FileUploadStatus :=
  { file := f, status := .uploading, message := none, chunksCreated := none }

/-- Result of the sequential upload loop. -/
structure LoopOut where
  files : List FileUploadStatus
  sc : Nat
  ec : Nat
  trace : List Event
deriving DecidableEq

/-- The plural suffix used in the session messages: the letter s exactly
when the count exceeds one (the conditional inside the template strings of
lines 108 and 113). -/
def pluralS (n : Nat) : String :=
  if 1 < n then "s" else ""

/-- The session message synthesized after the loop (lines 105-120). -/
def finalMessage (ns : String) (sc ec : Nat) : GlobalMessage :=
  if ec = 0 then
    { type := .success,
      text := toString sc ++ " document" ++ pluralS sc
        ++ " uploaded successfully to workspace \"" ++ ns ++ "\"!" }
  else if sc = 0 then
    { type := .error,
      text := "Failed to upload " ++ toString ec ++ " document" ++ pluralS ec
        ++ ". Please try again." }
  else
    { type := .error,
      text := toString sc ++ " uploaded, " ++ toString ec
        ++ " failed. Please check the errors above." }

/-- The `for` loop of `onDrop` (lines 59-103): strictly sequential, one
`await uploadContract(file, namespace)` at a time; on resolution the batch is
mapped, updating every item whose `file` is reference-equal to the current
file; `successCount` / `errorCount` are accumulated.  `net` is the network:
it maps a file to the settled result of its upload request. -/
def uploadLoop (ns : String) (net : FileH → Except UploadFailure UploadResponse) :
    List FileH → List FileUploadStatus → Nat → Nat → LoopOut
  | [], files, sc, ec => ⟨files, sc, ec, []⟩
  | f :: rest, files, sc, ec =>
    let res := net f
    let files1 := files.map (fun x => if x.file = f then applyOutcome res x else x)
    let sc1 := if isSuccessOutcome res then sc + 1 else sc
    let ec1 := if isSuccessOutcome res then ec else ec + 1
    let out := uploadLoop ns net rest files1 sc1 ec1
    ⟨out.files, out.sc, out.ec,
      .request f ns :: .response f
        :: .update f (applyOutcome res (mkPending f)).status :: out.trace⟩

/-- Result of one `onDrop` call: the final component state and the event trace. -/
structure DropOut where
  state : UploadState
  trace : List Event
deriving DecidableEq

/-- Function `onDrop` (ContractUpload.tsx lines 34-121).  `ns` is the current
`namespace` state; empty / missing input and the missing-workspace guard come
first, then the batch append, the sequential loop, and the session message. -/
def onDrop (ns : String) (st : UploadState) (acceptedFiles : List FileH)
    (net : FileH → Except UploadFailure UploadResponse) : DropOut :=
  if acceptedFiles.isEmpty then ⟨st, []⟩
  else if jsTrim ns = "" then
    ⟨{ st with
        namespaceError := "Workspace name is required",
        globalMessage := some
          { type := .error,
            text := "Please enter a workspace name before uploading documents." } },
      []⟩
  else
    let newFiles := acceptedFiles.map mkPending
    let out := uploadLoop ns net acceptedFiles (st.files ++ newFiles) 0 0
    let msg := finalMessage ns out.sc out.ec
    ⟨{ files := out.files, globalMessage := some msg, namespaceError := st.namespaceError },
      .append newFiles :: (out.trace ++ [.globalMsg msg])⟩

/-- Function `removeFile` (ContractUpload.tsx lines 123-125): keep exactly
the items whose file is not reference-equal to the removed file. -/
def removeFile (files : List FileUploadStatus) (fileToRemove : FileH) :
    List FileUploadStatus :=
  files.filter (fun x => decide (x.file ≠ fileToRemove))

/-- The per-item delete control (ContractUpload.tsx lines 428-442): it is
rendered only when the status of the item is not `uploading`, and clicking it calls
`removeFile(fileStatus.file)`.  So removal of a Pending item cannot be
invoked and the batch is unchanged. -/
def removeItemUI (files : List FileUploadStatus) (it : FileUploadStatus) :
    List FileUploadStatus :=
  if it.status = .uploading then files
  else removeFile files it.file

/-- Function `setNamespace` of utils/namespace.ts: store the value under the
fixed local-storage key contractNamespace.  The store models that single
persisted key as `Option String`. -/
def setNamespace (v : String) (_store : Option String) : Option String :=
  some v

/-- Function `getNamespace` of utils/namespace.ts: read the persisted key,
null (here `none`) when never set or cleared. -/
def getNamespace (store : Option String) : Option String :=
  store

/-- Function `clearNamespace` of utils/namespace.ts: remove the persisted key. -/
def clearNamespace (_store : Option String) : Option String :=
  none

/-- The character class of the sanitizer regex `[^a-zA-Z0-9-_]` in
`handleNamespaceChange` (line 28). -/
def isAllowedChar (c : Char) : Bool :=
  (decide ('a' ≤ c) && decide (c ≤ 'z'))
    || (decide ('A' ≤ c) && decide (c ≤ 'Z'))
    || (decide ('0' ≤ c) && decide (c ≤ '9'))
    || c == '-' || c == '_'

/-- The sanitizer of handleNamespaceChange line 28: replace every character
outside the class `[A-Za-z0-9_-]` by nothing, keeping the rest in order. -/
def sanitize (s : String) : String :=
  ⟨s.data.filter isAllowedChar⟩

/-- The namespace binding visible to ContractUpload: the React `namespace`
state, the persisted store, and the `namespaceError` field. -/
structure NamespaceBinding where
  state : String
  store : Option String
  nsError : String
deriving DecidableEq

/-- Function `handleNamespaceChange` (ContractUpload.tsx lines 26-32): sanitize, set
the state, persist via `setNamespace`, clear the error. -/
def handleNamespaceChange (value : String) (b : NamespaceBinding) : NamespaceBinding :=
  let sanitized := sanitize value
  { state := sanitized, store := setNamespace sanitized b.store, nsError := "" }

/-- The `interface Source` of the api service. -/
structure Source where
  source_num : Nat
  document : String
  page : Option Int
  source : String
  excerpt : String
deriving DecidableEq

/-- The `interface QueryResponse` of the api service: an answer and the
ranked sources. -/
structure QueryResponse where
  answer : String
  sources : List Source
deriving DecidableEq

/-- A rejected query request, as read in ContractQuery.tsx line 51:
`err.response?.data?.detail`, `err.message` (both may be absent / falsy). -/
structure QueryFailure where
  responseDetail : Option String
  message : Option String
deriving DecidableEq

/-- The error text of ContractQuery.tsx line 51: the server detail, or else
the transport error message, or else the fixed fallback text. -/
def queryErrText (e : QueryFailure) : String :=
  jsOrElse e.responseDetail (jsOrElse e.message "Failed to get answer")

/-- Component state of ContractQuery: the question text and the result /
error / loading fields. -/
structure QueryState where
  query : String
  answer : String
  sources : List Source
  loading : Bool
  error : String
deriving DecidableEq

/-- The one observable network action of `handleSubmit`: the body of the
`POST /query` request built by `queryContracts`
(`{ query, top_k: topK, namespace }`). -/
inductive QEvent
  | request (q : String) (ns : String) (top_k : Nat)
deriving DecidableEq

/-- The fixed result-count cap of ContractQuery.tsx line 30 (topK state,
never mutated). -/
def topK : Nat := 10

/-- Function `handleSubmit` (ContractQuery.tsx lines 32-55).  Blank question: silent
return.  JS-falsy `getNamespace()` (null or empty string): error message, no
request.  Otherwise exactly one `queryContracts(query, namespace, topK)`
request; the answer / sources are cleared before it and replaced wholesale on
success, or left cleared with an error text on failure; `loading` ends false. -/
def handleSubmit (st : QueryState) (store : Option String)
    (net : String → String → Nat → Except QueryFailure QueryResponse) :
    QueryState × List QEvent :=
  if jsTrim st.query = "" then (st, [])
  else
    match getNamespace store with
    | none =>
      ({ st with error := "Please upload documents first to set a workspace name." }, [])
    | some ns =>
      if ns = "" then
        ({ st with error := "Please upload documents first to set a workspace name." }, [])
      else
        match net st.query ns topK with
        | .ok r =>
          ({ st with
              answer := r.answer, sources := r.sources, error := "",
              loading := false },
            [.request st.query ns topK])
        | .error e =>
          ({ st with
              answer := "", sources := [], error := queryErrText e,
              loading := false },
            [.request st.query ns topK])

/-- The files carried by the request events of a trace, in order. -/
def requestsOf (tr : List Event) : List FileH :=
  tr.filterMap (fun e =>
    match e with
    | .request f _ => some f
    | _ => none)

/-- The request / response sub-trace, in order. -/
def reqRespOf (tr : List Event) : List Event :=
  tr.filter (fun e =>
    match e with
    | .request _ _ => true
    | .response _ => true
    | _ => false)

/-- The per-item status updates of a trace, in order. -/
def updatesOf (tr : List Event) : List (FileH × Status) :=
  tr.filterMap (fun e =>
    match e with
    | .update f s => some (f, s)
    | _ => none)

/-- The session messages of a trace, in order. -/
def globalMsgsOf (tr : List Event) : List GlobalMessage :=
  tr.filterMap (fun e =>
    match e with
    | .globalMsg m => some m
    | _ => none)

/-- At most one request in flight: scanning the trace with an in-flight flag,
a request may start only when none is in flight and a response may arrive
only when one is. -/
def seqFlag : Bool → List Event → Bool
  | _, [] => true
  | false, .request _ _ :: tr => seqFlag true tr
  | true, .request _ _ :: _ => false
  | true, .response _ :: tr => seqFlag false tr
  | false, .response _ :: _ => false
  | b, .append _ :: tr => seqFlag b tr
  | b, .update _ _ :: tr => seqFlag b tr
  | b, .globalMsg _ :: tr => seqFlag b tr

/-- The settled outcome of the upload of one file applied to its own freshly
appended Pending item: what the item becomes in the final batch. -/
def itemOutcome (f : FileH) (res : Except UploadFailure UploadResponse) :
    FileUploadStatus :=
  applyOutcome res (mkPending f)

/-- Number of files of the batch whose outcome counts as a success. -/
def succCount (net : FileH → Except UploadFailure UploadResponse)
    (fs : List FileH) : Nat :=
  (fs.filter (fun f => isSuccessOutcome (net f))).length

/-- Number of files of the batch whose outcome counts as a failure. -/
def errCount (net : FileH → Except UploadFailure UploadResponse)
    (fs : List FileH) : Nat :=
  (fs.filter (fun f => !isSuccessOutcome (net f))).length

/-- One step of the batch update: the `prev.map(...)` of lines 75-101 for one
file, applied to an arbitrary batch. -/
def updFun (net : FileH → Except UploadFailure UploadResponse) (f : FileH)
    (x : FileUploadStatus) : FileUploadStatus :=
  if x.file = f then applyOutcome (net f) x else x

theorem uploadLoop_requestsOf (ns : String)
    (net : FileH → Except UploadFailure UploadResponse) :
    ∀ (fs : List FileH) (files : List FileUploadStatus) (sc ec : Nat),
      requestsOf (uploadLoop ns net fs files sc ec).trace = fs := by
  intro fs
  induction fs with
  | nil => intro files sc ec; rfl
  | cons f rest ih =>
    intro files sc ec
    simp only [uploadLoop, requestsOf, List.filterMap_cons]
    exact congrArg (f :: ·) (ih _ _ _)

theorem uploadLoop_reqRespOf (ns : String)
    (net : FileH → Except UploadFailure UploadResponse) :
    ∀ (fs : List FileH) (files : List FileUploadStatus) (sc ec : Nat),
      reqRespOf (uploadLoop ns net fs files sc ec).trace =
        fs.flatMap (fun f => [Event.request f ns, Event.response f]) := by
  intro fs
  induction fs with
  | nil => intro files sc ec; rfl
  | cons f rest ih =>
    intro files sc ec
    simp only [uploadLoop, reqRespOf, List.filter_cons, List.flatMap_cons]
    simp only [reqRespOf] at ih
    simp [ih]

theorem uploadLoop_updatesOf (ns : String)
    (net : FileH → Except UploadFailure UploadResponse) :
    ∀ (fs : List FileH) (files : List FileUploadStatus) (sc ec : Nat),
      updatesOf (uploadLoop ns net fs files sc ec).trace =
        fs.map (fun f => (f, (itemOutcome f (net f)).status)) := by
  intro fs
  induction fs with
  | nil => intro files sc ec; rfl
  | cons f rest ih =>
    intro files sc ec
    simp only [uploadLoop, updatesOf, List.filterMap_cons, List.map_cons]
    simp only [updatesOf] at ih
    simp [ih, itemOutcome]

theorem uploadLoop_globalMsgsOf (ns : String)
    (net : FileH → Except UploadFailure UploadResponse) :
    ∀ (fs : List FileH) (files : List FileUploadStatus) (sc ec : Nat),
      globalMsgsOf (uploadLoop ns net fs files sc ec).trace = [] := by
  intro fs
  induction fs with
  | nil => intro files sc ec; rfl
  | cons f rest ih =>
    intro files sc ec
    simp only [uploadLoop, globalMsgsOf, List.filterMap_cons]
    exact ih _ _ _

theorem uploadLoop_seqFlag (ns : String)
    (net : FileH → Except UploadFailure UploadResponse) :
    ∀ (fs : List FileH) (files : List FileUploadStatus) (sc ec : Nat)
      (k : List Event), seqFlag false k = true →
      seqFlag false ((uploadLoop ns net fs files sc ec).trace ++ k) = true := by
  intro fs
  induction fs with
  | nil => intro files sc ec k hk; simpa using hk
  | cons f rest ih =>
    intro files sc ec k hk
    simp only [uploadLoop, List.cons_append, seqFlag]
    exact ih _ _ _ _ hk

theorem uploadLoop_sc (ns : String)
    (net : FileH → Except UploadFailure UploadResponse) :
    ∀ (fs : List FileH) (files : List FileUploadStatus) (sc ec : Nat),
      (uploadLoop ns net fs files sc ec).sc = sc + succCount net fs := by
  intro fs
  induction fs with
  | nil => intro files sc ec; simp [uploadLoop, succCount]
  | cons f rest ih =>
    intro files sc ec
    simp only [uploadLoop]
    rw [ih]
    by_cases h : isSuccessOutcome (net f) = true <;>
      simp [succCount, List.filter_cons, h] <;> omega

theorem uploadLoop_ec (ns : String)
    (net : FileH → Except UploadFailure UploadResponse) :
    ∀ (fs : List FileH) (files : List FileUploadStatus) (sc ec : Nat),
      (uploadLoop ns net fs files sc ec).ec = ec + errCount net fs := by
  intro fs
  induction fs with
  | nil => intro files sc ec; simp [uploadLoop, errCount]
  | cons f rest ih =>
    intro files sc ec
    simp only [uploadLoop]
    rw [ih]
    by_cases h : isSuccessOutcome (net f) = true <;>
      simp [errCount, List.filter_cons, h] <;> omega

theorem succCount_add_errCount (net : FileH → Except UploadFailure UploadResponse) :
    ∀ fs : List FileH, succCount net fs + errCount net fs = fs.length := by
  intro fs
  induction fs with
  | nil => rfl
  | cons f rest ih =>
    by_cases h : isSuccessOutcome (net f) = true <;>
      simp [succCount, errCount, List.filter_cons, h] <;>
      simp [succCount, errCount] at ih <;> omega

theorem uploadLoop_files_foldl (ns : String)
    (net : FileH → Except UploadFailure UploadResponse) :
    ∀ (fs : List FileH) (files : List FileUploadStatus) (sc ec : Nat),
      (uploadLoop ns net fs files sc ec).files =
        fs.foldl (fun acc f => acc.map (updFun net f)) files := by
  intro fs
  induction fs with
  | nil => intro files sc ec; rfl
  | cons f rest ih =>
    intro files sc ec
    simp only [uploadLoop, List.foldl_cons]
    rw [ih]
    rfl

theorem foldUpd_append (net : FileH → Except UploadFailure UploadResponse) :
    ∀ (fs : List FileH) (a b : List FileUploadStatus),
      fs.foldl (fun acc f => acc.map (updFun net f)) (a ++ b) =
        fs.foldl (fun acc f => acc.map (updFun net f)) a
          ++ fs.foldl (fun acc f => acc.map (updFun net f)) b := by
  intro fs
  induction fs with
  | nil => intro a b; rfl
  | cons f rest ih =>
    intro a b
    simp only [List.foldl_cons, List.map_append]
    exact ih _ _

theorem foldUpd_untouched (net : FileH → Except UploadFailure UploadResponse) :
    ∀ (fs : List FileH) (a : List FileUploadStatus),
      (∀ x ∈ a, x.file ∉ fs) →
      fs.foldl (fun acc f => acc.map (updFun net f)) a = a := by
  intro fs
  induction fs with
  | nil => intro a _; rfl
  | cons f rest ih =>
    intro a ha
    simp only [List.foldl_cons]
    have hmap : a.map (updFun net f) = a := by
      have : ∀ x ∈ a, updFun net f x = id x := by
        intro x hx
        have : x.file ≠ f := by
          intro hxf
          exact ha x hx (hxf ▸ List.mem_cons_self f rest)
        simp [updFun, this]
      rw [List.map_congr_left this, List.map_id]
    rw [hmap]
    exact ih a (fun x hx hmem => ha x hx (List.mem_cons_of_mem f hmem))

theorem applyOutcome_file (res : Except UploadFailure UploadResponse)
    (x : FileUploadStatus) : (applyOutcome res x).file = x.file := by
  cases res <;> rfl

theorem itemOutcome_file (f : FileH) (res : Except UploadFailure UploadResponse) :
    (itemOutcome f res).file = f := by
  rw [itemOutcome, applyOutcome_file]
  rfl

theorem foldUpd_pending (net : FileH → Except UploadFailure UploadResponse) :
    ∀ fs : List FileH, fs.Nodup →
      fs.foldl (fun acc f => acc.map (updFun net f)) (fs.map mkPending) =
        fs.map (fun f => itemOutcome f (net f)) := by
  intro fs
  induction fs with
  | nil => intro _; rfl
  | cons f rest ih =>
    intro hnd
    have hf : f ∉ rest := (List.nodup_cons.mp hnd).1
    have hrest : rest.Nodup := (List.nodup_cons.mp hnd).2
    simp only [List.map_cons, List.foldl_cons]
    have hhead : updFun net f (mkPending f) = itemOutcome f (net f) := by
      simp [updFun, mkPending, itemOutcome]
    have htail : (rest.map mkPending).map (updFun net f) = rest.map mkPending := by
      rw [List.map_map]
      apply List.map_congr_left
      intro g hg
      have hgf : g ≠ f := fun h => hf (h ▸ hg)
      simp [Function.comp, updFun, mkPending, hgf]
    rw [hhead, htail]
    have hsplit : itemOutcome f (net f) :: List.map mkPending rest =
        [itemOutcome f (net f)] ++ List.map mkPending rest := rfl
    rw [hsplit, foldUpd_append]
    have huntouched :
        rest.foldl (fun acc g => acc.map (updFun net g)) [itemOutcome f (net f)] =
          [itemOutcome f (net f)] := by
      apply foldUpd_untouched
      intro x hx
      have hxeq : x = itemOutcome f (net f) := by simpa using hx
      rw [hxeq, itemOutcome_file]
      exact hf
    rw [huntouched, ih hrest]
    rfl

theorem onDrop_main (ns : String) (st : UploadState) (fs : List FileH)
    (net : FileH → Except UploadFailure UploadResponse)
    (h1 : fs ≠ []) (h2 : jsTrim ns ≠ "") :
    onDrop ns st fs net =
      ⟨{ files := (uploadLoop ns net fs (st.files ++ fs.map mkPending) 0 0).files,
         globalMessage := some (finalMessage ns (succCount net fs) (errCount net fs)),
         namespaceError := st.namespaceError },
        Event.append (fs.map mkPending)
          :: ((uploadLoop ns net fs (st.files ++ fs.map mkPending) 0 0).trace
            ++ [Event.globalMsg (finalMessage ns (succCount net fs) (errCount net fs))])⟩ := by
  have hie : fs.isEmpty = false := by
    cases fs with
    | nil => exact absurd rfl h1
    | cons a l => rfl
  simp only [onDrop, hie, Bool.false_eq_true, if_false, if_neg h2]
  rw [uploadLoop_sc, uploadLoop_ec]
  simp only [Nat.zero_add]

theorem requestsOf_append (a b : List Event) :
    requestsOf (a ++ b) = requestsOf a ++ requestsOf b := by
  simp [requestsOf, List.filterMap_append]

theorem reqRespOf_append (a b : List Event) :
    reqRespOf (a ++ b) = reqRespOf a ++ reqRespOf b := by
  simp [reqRespOf, List.filter_append]

theorem updatesOf_append (a b : List Event) :
    updatesOf (a ++ b) = updatesOf a ++ updatesOf b := by
  simp [updatesOf, List.filterMap_append]

theorem globalMsgsOf_append (a b : List Event) :
    globalMsgsOf (a ++ b) = globalMsgsOf a ++ globalMsgsOf b := by
  simp [globalMsgsOf, List.filterMap_append]

theorem requestsOf_consAppend (its : List FileUploadStatus) (tr : List Event) :
    requestsOf (Event.append its :: tr) = requestsOf tr := rfl

theorem reqRespOf_consAppend (its : List FileUploadStatus) (tr : List Event) :
    reqRespOf (Event.append its :: tr) = reqRespOf tr := rfl

theorem updatesOf_consAppend (its : List FileUploadStatus) (tr : List Event) :
    updatesOf (Event.append its :: tr) = updatesOf tr := rfl

theorem globalMsgsOf_consAppend (its : List FileUploadStatus) (tr : List Event) :
    globalMsgsOf (Event.append its :: tr) = globalMsgsOf tr := rfl

theorem seqFlag_consAppend (b : Bool) (its : List FileUploadStatus)
    (tr : List Event) : seqFlag b (Event.append its :: tr) = seqFlag b tr := by
  cases b <;> rfl

theorem onDrop_requestsOf (ns : String) (st : UploadState) (fs : List FileH)
    (net : FileH → Except UploadFailure UploadResponse)
    (h1 : fs ≠ []) (h2 : jsTrim ns ≠ "") :
    requestsOf (onDrop ns st fs net).trace = fs := by
  rw [onDrop_main ns st fs net h1 h2]
  dsimp only
  rw [requestsOf_consAppend, requestsOf_append, uploadLoop_requestsOf]
  simp [requestsOf]

theorem onDrop_reqRespOf (ns : String) (st : UploadState) (fs : List FileH)
    (net : FileH → Except UploadFailure UploadResponse)
    (h1 : fs ≠ []) (h2 : jsTrim ns ≠ "") :
    reqRespOf (onDrop ns st fs net).trace =
      fs.flatMap (fun f => [Event.request f ns, Event.response f]) := by
  rw [onDrop_main ns st fs net h1 h2]
  dsimp only
  rw [reqRespOf_consAppend, reqRespOf_append, uploadLoop_reqRespOf]
  simp [reqRespOf]

theorem onDrop_updatesOf (ns : String) (st : UploadState) (fs : List FileH)
    (net : FileH → Except UploadFailure UploadResponse)
    (h1 : fs ≠ []) (h2 : jsTrim ns ≠ "") :
    updatesOf (onDrop ns st fs net).trace =
      fs.map (fun f => (f, (itemOutcome f (net f)).status)) := by
  rw [onDrop_main ns st fs net h1 h2]
  dsimp only
  rw [updatesOf_consAppend, updatesOf_append, uploadLoop_updatesOf]
  simp [updatesOf]

theorem onDrop_globalMsgsOf (ns : String) (st : UploadState) (fs : List FileH)
    (net : FileH → Except UploadFailure UploadResponse)
    (h1 : fs ≠ []) (h2 : jsTrim ns ≠ "") :
    globalMsgsOf (onDrop ns st fs net).trace =
      [finalMessage ns (succCount net fs) (errCount net fs)] := by
  rw [onDrop_main ns st fs net h1 h2]
  dsimp only
  rw [globalMsgsOf_consAppend, globalMsgsOf_append, uploadLoop_globalMsgsOf]
  simp [globalMsgsOf]

theorem onDrop_seqFlag (ns : String) (st : UploadState) (fs : List FileH)
    (net : FileH → Except UploadFailure UploadResponse)
    (h1 : fs ≠ []) (h2 : jsTrim ns ≠ "") :
    seqFlag false (onDrop ns st fs net).trace = true := by
  rw [onDrop_main ns st fs net h1 h2]
  dsimp only
  rw [seqFlag_consAppend]
  exact uploadLoop_seqFlag ns net fs _ 0 0
    [Event.globalMsg (finalMessage ns (succCount net fs) (errCount net fs))] rfl

theorem onDrop_files_final (ns : String) (st : UploadState) (fs : List FileH)
    (net : FileH → Except UploadFailure UploadResponse)
    (h1 : fs ≠ []) (h2 : jsTrim ns ≠ "")
    (hnd : fs.Nodup) (hdisj : ∀ x ∈ st.files, x.file ∉ fs) :
    (onDrop ns st fs net).state.files =
      st.files ++ fs.map (fun f => itemOutcome f (net f)) := by
  rw [onDrop_main ns st fs net h1 h2]
  show (uploadLoop ns net fs (st.files ++ fs.map mkPending) 0 0).files = _
  rw [uploadLoop_files_foldl, foldUpd_append, foldUpd_untouched net fs st.files hdisj,
    foldUpd_pending net fs hnd]

/-- C1: for a non-empty accepted list with a non-empty (after trim) bound
workspace, `onDrop` first appends one Pending item per file, in input order,
as the head event of the run — before any upload request — and then issues
the per-file requests strictly sequentially in input order: the
request/response sub-trace is exactly request-then-response per file, and at
most one request is in flight at any time (`seqFlag`). -/
theorem upload_pending_append_and_sequencing (ns : String) (st : UploadState)
    (fs : List FileH) (net : FileH → Except UploadFailure UploadResponse)
    (h1 : fs ≠ []) (h2 : jsTrim ns ≠ "") :
    (∃ tl, (onDrop ns st fs net).trace = Event.append (fs.map mkPending) :: tl) ∧
    (∀ it ∈ fs.map mkPending, it.status = Status.uploading) ∧
    requestsOf (onDrop ns st fs net).trace = fs ∧
    reqRespOf (onDrop ns st fs net).trace =
      fs.flatMap (fun f => [Event.request f ns, Event.response f]) ∧
    seqFlag false (onDrop ns st fs net).trace = true := by
  refine ⟨?_, ?_, onDrop_requestsOf ns st fs net h1 h2,
    onDrop_reqRespOf ns st fs net h1 h2, onDrop_seqFlag ns st fs net h1 h2⟩
  · exact ⟨(uploadLoop ns net fs (st.files ++ fs.map mkPending) 0 0).trace
        ++ [Event.globalMsg (finalMessage ns (succCount net fs) (errCount net fs))],
      by rw [onDrop_main ns st fs net h1 h2]⟩
  · intro it hit
    obtain ⟨f, _, rfl⟩ := List.mem_map.mp hit
    rfl

/-- C1 witness at a concrete batch of two files over a network that fails the
second file. -/
theorem upload_pending_append_and_sequencing_witness :
    ([⟨0, "a.pdf"⟩, ⟨1, "b.pdf"⟩] : List FileH) ≠ [] ∧ jsTrim "acme" ≠ "" ∧
    ((∃ tl, (onDrop "acme" ⟨[], none, ""⟩ [⟨0, "a.pdf"⟩, ⟨1, "b.pdf"⟩]
        (fun f => if f.ref = 0
          then Except.ok ⟨"ok", 3, some [⟨some "a.pdf", .success, some 3, none⟩]⟩
          else Except.error ⟨some "server down", "Network Error"⟩)).trace =
        Event.append (([⟨0, "a.pdf"⟩, ⟨1, "b.pdf"⟩] : List FileH).map mkPending) :: tl) ∧
      (∀ it ∈ ([⟨0, "a.pdf"⟩, ⟨1, "b.pdf"⟩] : List FileH).map mkPending,
        it.status = Status.uploading) ∧
      requestsOf (onDrop "acme" ⟨[], none, ""⟩ [⟨0, "a.pdf"⟩, ⟨1, "b.pdf"⟩]
        (fun f => if f.ref = 0
          then Except.ok ⟨"ok", 3, some [⟨some "a.pdf", .success, some 3, none⟩]⟩
          else Except.error ⟨some "server down", "Network Error"⟩)).trace =
        [⟨0, "a.pdf"⟩, ⟨1, "b.pdf"⟩] ∧
      reqRespOf (onDrop "acme" ⟨[], none, ""⟩ [⟨0, "a.pdf"⟩, ⟨1, "b.pdf"⟩]
        (fun f => if f.ref = 0
          then Except.ok ⟨"ok", 3, some [⟨some "a.pdf", .success, some 3, none⟩]⟩
          else Except.error ⟨some "server down", "Network Error"⟩)).trace =
        ([⟨0, "a.pdf"⟩, ⟨1, "b.pdf"⟩] : List FileH).flatMap
          (fun f => [Event.request f "acme", Event.response f]) ∧
      seqFlag false (onDrop "acme" ⟨[], none, ""⟩ [⟨0, "a.pdf"⟩, ⟨1, "b.pdf"⟩]
        (fun f => if f.ref = 0
          then Except.ok ⟨"ok", 3, some [⟨some "a.pdf", .success, some 3, none⟩]⟩
          else Except.error ⟨some "server down", "Network Error"⟩)).trace = true) :=
  ⟨by decide, by decide,
    upload_pending_append_and_sequencing "acme" ⟨[], none, ""⟩
      [⟨0, "a.pdf"⟩, ⟨1, "b.pdf"⟩] _ (by decide) (by decide)⟩

/-- C2: each file of a submitted batch ends exactly as its own request
dictates — per-file status `success` yields a Success item whose message is
derived from the chunk count; a per-item `error` status yields a Failed item
with the server message; a transport failure yields a Failed item whose
message prefers the server-provided detail over the transport error text —
and every file is processed (one request per file) regardless of other
failures of other files.  Distinct reference identity of the batch files (fresh
`File` objects per drop) is assumed. -/
theorem upload_per_file_outcome (ns : String) (st : UploadState)
    (fs : List FileH) (net : FileH → Except UploadFailure UploadResponse)
    (h1 : fs ≠ []) (h2 : jsTrim ns ≠ "") (hnd : fs.Nodup)
    (hdisj : ∀ x ∈ st.files, x.file ∉ fs) :
    (onDrop ns st fs net).state.files =
      st.files ++ fs.map (fun f => itemOutcome f (net f)) ∧
    requestsOf (onDrop ns st fs net).trace = fs ∧
    (∀ f r, net f = Except.ok r → (fileResult r).status = RespStatus.success →
      itemOutcome f (net f) =
        { file := f, status := Status.success,
          message := some (successText (fileResult r).chunks_created),
          chunksCreated := (fileResult r).chunks_created }) ∧
    (∀ f r, net f = Except.ok r → (fileResult r).status = RespStatus.error →
      itemOutcome f (net f) =
        { file := f, status := Status.error,
          message := (fileResult r).message,
          chunksCreated := (fileResult r).chunks_created }) ∧
    (∀ f e, net f = Except.error e →
      itemOutcome f (net f) =
        { file := f, status := Status.error,
          message := some (jsOrElse e.responseDetail e.message),
          chunksCreated := none }) ∧
    (∀ f e d, net f = Except.error e → e.responseDetail = some d → d ≠ "" →
      itemOutcome f (net f) =
        { file := f, status := Status.error,
          message := some d, chunksCreated := none }) := by
  refine ⟨onDrop_files_final ns st fs net h1 h2 hnd hdisj,
    onDrop_requestsOf ns st fs net h1 h2, ?_, ?_, ?_, ?_⟩
  · intro f r hr hs
    rw [hr]
    simp [itemOutcome, applyOutcome, applyResolved, mkPending, hs]
  · intro f r hr hs
    rw [hr]
    simp [itemOutcome, applyOutcome, applyResolved, mkPending, hs]
  · intro f e he
    rw [he]
    simp [itemOutcome, applyOutcome, applyRejected, mkPending]
  · intro f e d he hd hne
    rw [he]
    simp [itemOutcome, applyOutcome, applyRejected, mkPending, jsOrElse, hd, hne]

/-- C2 witness: a two-file batch where the first file succeeds with 3 chunks
and the second fails at transport level with a server detail. -/
theorem upload_per_file_outcome_witness :
    ([⟨0, "a.pdf"⟩, ⟨1, "b.pdf"⟩] : List FileH) ≠ [] ∧ jsTrim "acme" ≠ "" ∧
    ([⟨0, "a.pdf"⟩, ⟨1, "b.pdf"⟩] : List FileH).Nodup ∧
    (onDrop "acme" ⟨[], none, ""⟩ [⟨0, "a.pdf"⟩, ⟨1, "b.pdf"⟩]
      (fun f => if f.ref = 0
        then Except.ok ⟨"ok", 3, some [⟨some "a.pdf", .success, some 3, none⟩]⟩
        else Except.error ⟨some "server down", "Network Error"⟩)).state.files =
      [] ++ ([⟨0, "a.pdf"⟩, ⟨1, "b.pdf"⟩] : List FileH).map
        (fun f => itemOutcome f ((fun f : FileH => if f.ref = 0
          then Except.ok ⟨"ok", 3, some [⟨some "a.pdf", .success, some 3, none⟩]⟩
          else Except.error ⟨some "server down", "Network Error"⟩) f)) ∧
    (onDrop "acme" ⟨[], none, ""⟩ [⟨0, "a.pdf"⟩, ⟨1, "b.pdf"⟩]
      (fun f => if f.ref = 0
        then Except.ok ⟨"ok", 3, some [⟨some "a.pdf", .success, some 3, none⟩]⟩
        else Except.error ⟨some "server down", "Network Error"⟩)).state.files =
      [⟨⟨0, "a.pdf"⟩, Status.success,
          some "Processed successfully! 3 sections analyzed.", some 3⟩,
        ⟨⟨1, "b.pdf"⟩, Status.error, some "server down", none⟩] := by
  refine ⟨by decide, by decide, by decide, ?_, by decide⟩
  exact (upload_per_file_outcome "acme" ⟨[], none, ""⟩ [⟨0, "a.pdf"⟩, ⟨1, "b.pdf"⟩] _
    (by decide) (by decide) (by decide) (by decide)).1

/-- C3: after all files are processed, exactly one session message is emitted
and stored, determined by the failure count: zero failures gives a success
message naming the number of files and the workspace, all failures gives a
failure message naming the failure count (which is then the number of
files), and a mix states both counts and directs to the per-item details. -/
theorem upload_session_message (ns : String) (st : UploadState)
    (fs : List FileH) (net : FileH → Except UploadFailure UploadResponse)
    (h1 : fs ≠ []) (h2 : jsTrim ns ≠ "") :
    globalMsgsOf (onDrop ns st fs net).trace =
      [finalMessage ns (succCount net fs) (errCount net fs)] ∧
    (onDrop ns st fs net).state.globalMessage =
      some (finalMessage ns (succCount net fs) (errCount net fs)) ∧
    succCount net fs + errCount net fs = fs.length ∧
    (errCount net fs = 0 →
      finalMessage ns (succCount net fs) (errCount net fs) =
        { type := MsgType.success,
          text := toString fs.length ++ " document" ++ pluralS fs.length
            ++ " uploaded successfully to workspace \"" ++ ns ++ "\"!" }) ∧
    (succCount net fs = 0 →
      finalMessage ns (succCount net fs) (errCount net fs) =
        { type := MsgType.error,
          text := "Failed to upload " ++ toString fs.length ++ " document"
            ++ pluralS fs.length ++ ". Please try again." }) ∧
    (succCount net fs ≠ 0 → errCount net fs ≠ 0 →
      finalMessage ns (succCount net fs) (errCount net fs) =
        { type := MsgType.error,
          text := toString (succCount net fs) ++ " uploaded, "
            ++ toString (errCount net fs)
            ++ " failed. Please check the errors above." }) := by
  have hsum := succCount_add_errCount net fs
  have hlen : 0 < fs.length := List.length_pos.mpr h1
  refine ⟨onDrop_globalMsgsOf ns st fs net h1 h2, ?_, hsum, ?_, ?_, ?_⟩
  · rw [onDrop_main ns st fs net h1 h2]
  · intro hec
    have hsc : succCount net fs = fs.length := by omega
    rw [finalMessage, if_pos hec, hsc]
  · intro hsc
    have hec : errCount net fs = fs.length := by omega
    have hecne : errCount net fs ≠ 0 := by omega
    rw [finalMessage, if_neg hecne, if_pos hsc, hec]
  · intro hsc hec
    rw [finalMessage, if_neg hec, if_neg hsc]

/-- C3 witness: a mixed two-file batch (one success, one failure) yields the
single mixed-counts session message. -/
theorem upload_session_message_witness :
    ([⟨0, "a.pdf"⟩, ⟨1, "b.pdf"⟩] : List FileH) ≠ [] ∧ jsTrim "acme" ≠ "" ∧
    globalMsgsOf (onDrop "acme" ⟨[], none, ""⟩ [⟨0, "a.pdf"⟩, ⟨1, "b.pdf"⟩]
      (fun f => if f.ref = 0
        then Except.ok ⟨"ok", 3, some [⟨some "a.pdf", .success, some 3, none⟩]⟩
        else Except.error ⟨some "server down", "Network Error"⟩)).trace =
      [finalMessage "acme"
        (succCount (fun f : FileH => if f.ref = 0
          then Except.ok ⟨"ok", 3, some [⟨some "a.pdf", .success, some 3, none⟩]⟩
          else Except.error ⟨some "server down", "Network Error"⟩)
          [⟨0, "a.pdf"⟩, ⟨1, "b.pdf"⟩])
        (errCount (fun f : FileH => if f.ref = 0
          then Except.ok ⟨"ok", 3, some [⟨some "a.pdf", .success, some 3, none⟩]⟩
          else Except.error ⟨some "server down", "Network Error"⟩)
          [⟨0, "a.pdf"⟩, ⟨1, "b.pdf"⟩])] ∧
    globalMsgsOf (onDrop "acme" ⟨[], none, ""⟩ [⟨0, "a.pdf"⟩, ⟨1, "b.pdf"⟩]
      (fun f => if f.ref = 0
        then Except.ok ⟨"ok", 3, some [⟨some "a.pdf", .success, some 3, none⟩]⟩
        else Except.error ⟨some "server down", "Network Error"⟩)).trace =
      [⟨MsgType.error, "1 uploaded, 1 failed. Please check the errors above."⟩] := by
  refine ⟨by decide, by decide, ?_, by decide⟩
  exact (upload_session_message "acme" ⟨[], none, ""⟩ [⟨0, "a.pdf"⟩, ⟨1, "b.pdf"⟩] _
    (by decide) (by decide)).1

/-- C4: setting the workspace with raw input `x` persists exactly the
subsequence of the characters of `x` in `[A-Za-z0-9_-]`, in original relative
order (a `some` value is stored even when the result is empty), and a
subsequent get returns exactly that value.  The count characterization makes
"exactly the subsequence of the allowed characters" precise: every allowed
character occurrence of `x` is kept and nothing else appears. -/
theorem workspace_set_get_sanitized (x : String) (b : NamespaceBinding) :
    getNamespace (handleNamespaceChange x b).store = some (sanitize x) ∧
    (sanitize x).data.Sublist x.data ∧
    (∀ c ∈ (sanitize x).data, isAllowedChar c = true) ∧
    (∀ c : Char, (sanitize x).data.count c =
      if isAllowedChar c then x.data.count c else 0) := by
  refine ⟨rfl, List.filter_sublist _, ?_, ?_⟩
  · intro c hc
    exact (List.mem_filter.mp hc).2
  · intro c
    by_cases h : isAllowedChar c = true
    · rw [if_pos h]
      exact List.count_filter h
    · rw [if_neg h, List.count_eq_zero]
      intro hc
      exact h (List.mem_filter.mp hc).2

/-- C4 witness: a concrete raw input with punctuation and whitespace is
sanitized, persisted, and read back. -/
theorem workspace_set_get_sanitized_witness :
    getNamespace (handleNamespaceChange "my ws!7_x-" ⟨"", none, "e"⟩).store =
      some (sanitize "my ws!7_x-") ∧
    sanitize "my ws!7_x-" = "myws7_x-" ∧
    (sanitize "my ws!7_x-").data.Sublist "my ws!7_x-".data :=
  ⟨(workspace_set_get_sanitized "my ws!7_x-" ⟨"", none, "e"⟩).1, by decide,
    (workspace_set_get_sanitized "my ws!7_x-" ⟨"", none, "e"⟩).2.1⟩

/-- C5: a non-empty drop with a blank (after trim) workspace issues zero
requests, produces the missing-workspace error message (and field error),
and adds no items to the batch. -/
theorem missing_workspace_blocks_upload (ns : String) (st : UploadState)
    (fs : List FileH) (net : FileH → Except UploadFailure UploadResponse)
    (h1 : fs ≠ []) (h2 : jsTrim ns = "") :
    onDrop ns st fs net =
      ⟨{ st with
          namespaceError := "Workspace name is required",
          globalMessage := some
            { type := MsgType.error,
              text := "Please enter a workspace name before uploading documents." } },
        []⟩ ∧
    (onDrop ns st fs net).state.files = st.files ∧
    requestsOf (onDrop ns st fs net).trace = [] := by
  have hie : fs.isEmpty = false := by
    cases fs with
    | nil => exact absurd rfl h1
    | cons a l => rfl
  have hmain : onDrop ns st fs net =
      ⟨{ st with
          namespaceError := "Workspace name is required",
          globalMessage := some
            { type := MsgType.error,
              text := "Please enter a workspace name before uploading documents." } },
        []⟩ := by
    simp only [onDrop, hie, Bool.false_eq_true, if_false, if_pos h2]
  refine ⟨hmain, ?_, ?_⟩ <;> rw [hmain] <;> rfl

/-- C5 witness: one file dropped with an entirely blank workspace. -/
theorem missing_workspace_blocks_upload_witness :
    ([⟨0, "a.pdf"⟩] : List FileH) ≠ [] ∧ jsTrim "  " = "" ∧
    onDrop "  " ⟨[], none, ""⟩ [⟨0, "a.pdf"⟩]
        (fun _ => Except.error ⟨none, "x"⟩) =
      ⟨⟨[], some ⟨MsgType.error,
          "Please enter a workspace name before uploading documents."⟩,
        "Workspace name is required"⟩, []⟩ ∧
    requestsOf (onDrop "  " ⟨[], none, ""⟩ [⟨0, "a.pdf"⟩]
      (fun _ => Except.error ⟨none, "x"⟩)).trace = [] := by
  refine ⟨by decide, by decide, ?_, ?_⟩
  · exact (missing_workspace_blocks_upload "  " ⟨[], none, ""⟩ [⟨0, "a.pdf"⟩] _
      (by decide) (by decide)).1
  · exact (missing_workspace_blocks_upload "  " ⟨[], none, ""⟩ [⟨0, "a.pdf"⟩] _
      (by decide) (by decide)).2.2

/-- C6: the rendered delete control removes a Success or Failed item from
the batch — every entry for that file is gone, the remaining items keep
their relative order (a sublist of the original), and every item for another
file survives — while for a Pending item the control is not rendered, so the
batch is unchanged. -/
theorem remove_item_gated (files : List FileUploadStatus) (it : FileUploadStatus) :
    (it.status = Status.uploading → removeItemUI files it = files) ∧
    (it.status ≠ Status.uploading →
      (removeItemUI files it).Sublist files ∧
      (∀ x ∈ removeItemUI files it, x.file ≠ it.file) ∧
      (∀ x ∈ files, x.file ≠ it.file → x ∈ removeItemUI files it)) := by
  constructor
  · intro h
    simp [removeItemUI, h]
  · intro h
    simp only [removeItemUI, if_neg h, removeFile]
    refine ⟨List.filter_sublist _, ?_, ?_⟩
    · intro x hx
      have hmem := (List.mem_filter.mp hx).2
      simpa using hmem
    · intro x hx hne
      exact List.mem_filter.mpr ⟨hx, by simpa using hne⟩

/-- C6 witness: removing a Success item deletes it; removing the same-file
Pending item leaves the batch unchanged. -/
theorem remove_item_gated_witness :
    (⟨⟨0, "a.pdf"⟩, Status.uploading, none, none⟩ : FileUploadStatus).status =
      Status.uploading ∧
    removeItemUI [⟨⟨0, "a.pdf"⟩, Status.uploading, none, none⟩]
        ⟨⟨0, "a.pdf"⟩, Status.uploading, none, none⟩ =
      [⟨⟨0, "a.pdf"⟩, Status.uploading, none, none⟩] ∧
    (⟨⟨0, "a.pdf"⟩, Status.success, some "ok", some 3⟩ : FileUploadStatus).status ≠
      Status.uploading ∧
    (∀ x ∈ removeItemUI
        [⟨⟨0, "a.pdf"⟩, Status.success, some "ok", some 3⟩,
          ⟨⟨1, "b.pdf"⟩, Status.error, some "bad", none⟩]
        ⟨⟨0, "a.pdf"⟩, Status.success, some "ok", some 3⟩,
      x.file ≠ (⟨0, "a.pdf"⟩ : FileH)) := by
  refine ⟨by decide, ?_, by decide, ?_⟩
  · exact (remove_item_gated [⟨⟨0, "a.pdf"⟩, Status.uploading, none, none⟩]
      ⟨⟨0, "a.pdf"⟩, Status.uploading, none, none⟩).1 (by decide)
  · exact ((remove_item_gated
      [⟨⟨0, "a.pdf"⟩, Status.success, some "ok", some 3⟩,
        ⟨⟨1, "b.pdf"⟩, Status.error, some "bad", none⟩]
      ⟨⟨0, "a.pdf"⟩, Status.success, some "ok", some 3⟩).2 (by decide)).2.1

/-- C7: every item in the batch is created Pending (the appended items all
carry `uploading`), and the trace carries exactly one status update per file
— in input order, fired when the own request of that file resolves, with the
resulting status never `uploading` (so an item that became Success or Failed
is never updated again); file identity is by reference: distinct `ref`
values give distinct files even with identical names. -/
theorem item_single_status_transition (ns : String) (st : UploadState)
    (fs : List FileH) (net : FileH → Except UploadFailure UploadResponse)
    (h1 : fs ≠ []) (h2 : jsTrim ns ≠ "") (hnd : fs.Nodup) :
    updatesOf (onDrop ns st fs net).trace =
      fs.map (fun f => (f, (itemOutcome f (net f)).status)) ∧
    (∀ f ∈ fs,
      ((updatesOf (onDrop ns st fs net).trace).map Prod.fst).count f = 1) ∧
    (∀ f res, (itemOutcome f res).status ≠ Status.uploading) ∧
    (∃ tl, (onDrop ns st fs net).trace = Event.append (fs.map mkPending) :: tl) ∧
    (∀ it ∈ fs.map mkPending, it.status = Status.uploading) ∧
    (∀ f g : FileH, f.ref ≠ g.ref → f ≠ g) := by
  refine ⟨onDrop_updatesOf ns st fs net h1 h2, ?_, ?_, ?_, ?_, ?_⟩
  · intro f hf
    rw [onDrop_updatesOf ns st fs net h1 h2, List.map_map]
    have hid : (Prod.fst ∘ fun f => (f, (itemOutcome f (net f)).status)) =
        fun f : FileH => f := rfl
    rw [hid, List.map_id']
    exact List.count_eq_one_of_mem hnd hf
  · intro f res
    cases res with
    | ok r =>
      cases h : (fileResult r).status <;>
        simp [itemOutcome, applyOutcome, applyResolved, mkPending, h]
    | error e =>
      simp [itemOutcome, applyOutcome, applyRejected, mkPending]
  · exact ⟨(uploadLoop ns net fs (st.files ++ fs.map mkPending) 0 0).trace
        ++ [Event.globalMsg (finalMessage ns (succCount net fs) (errCount net fs))],
      by rw [onDrop_main ns st fs net h1 h2]⟩
  · intro it hit
    obtain ⟨f, _, rfl⟩ := List.mem_map.mp hit
    rfl
  · intro f g hne heq
    exact hne (congrArg FileH.ref heq)

/-- C7 witness: two files with identical names but distinct references; each
gets exactly one update event. -/
theorem item_single_status_transition_witness :
    ([⟨0, "c.pdf"⟩, ⟨1, "c.pdf"⟩] : List FileH) ≠ [] ∧ jsTrim "acme" ≠ "" ∧
    ([⟨0, "c.pdf"⟩, ⟨1, "c.pdf"⟩] : List FileH).Nodup ∧
    (∀ f ∈ ([⟨0, "c.pdf"⟩, ⟨1, "c.pdf"⟩] : List FileH),
      ((updatesOf (onDrop "acme" ⟨[], none, ""⟩ [⟨0, "c.pdf"⟩, ⟨1, "c.pdf"⟩]
        (fun _ => Except.error ⟨none, "boom"⟩)).trace).map Prod.fst).count f = 1) ∧
    (⟨0, "c.pdf"⟩ : FileH) ≠ ⟨1, "c.pdf"⟩ := by
  refine ⟨by decide, by decide, by decide, ?_, by decide⟩
  exact (item_single_status_transition "acme" ⟨[], none, ""⟩
    [⟨0, "c.pdf"⟩, ⟨1, "c.pdf"⟩] _ (by decide) (by decide) (by decide)).2.1

/-- C10: a request that resolves whose response has no `results` array, or
an empty one, falls back to a synthetic per-file success: the item becomes
Success (never Failed), its chunk count comes from the `total_chunks` field
of the response, and the message is the standard success text for that
count. -/
theorem fallback_results_success (ns : String) (st : UploadState)
    (fs : List FileH) (net : FileH → Except UploadFailure UploadResponse)
    (f : FileH) (r : UploadResponse)
    (h1 : fs ≠ []) (h2 : jsTrim ns ≠ "") (hnd : fs.Nodup)
    (hdisj : ∀ x ∈ st.files, x.file ∉ fs) (hf : f ∈ fs)
    (hr : net f = Except.ok r)
    (hres : r.results = none ∨ r.results = some []) :
    itemOutcome f (net f) =
      { file := f, status := Status.success,
        message := some ("Processed successfully! " ++ toString r.total_chunks
          ++ " sections analyzed."),
        chunksCreated := some r.total_chunks } ∧
    ({ file := f, status := Status.success,
        message := some ("Processed successfully! " ++ toString r.total_chunks
          ++ " sections analyzed."),
        chunksCreated := some r.total_chunks } : FileUploadStatus) ∈
      (onDrop ns st fs net).state.files := by
  have hfr : fileResult r =
      { filename := none, status := .success,
        chunks_created := some r.total_chunks, message := none } := by
    rcases hres with h | h <;> simp [fileResult, h]
  have hitem : itemOutcome f (net f) =
      { file := f, status := Status.success,
        message := some ("Processed successfully! " ++ toString r.total_chunks
          ++ " sections analyzed."),
        chunksCreated := some r.total_chunks } := by
    rw [hr]
    simp [itemOutcome, applyOutcome, applyResolved, mkPending, hfr,
      successText, chunksStr]
  refine ⟨hitem, ?_⟩
  rw [onDrop_files_final ns st fs net h1 h2 hnd hdisj, ← hitem]
  exact List.mem_append_right _ (List.mem_map.mpr ⟨f, hf, rfl⟩)

/-- C10 witness: a single-file batch whose response carries an empty
`results` array and `total_chunks = 7`. -/
theorem fallback_results_success_witness :
    ([⟨0, "a.pdf"⟩] : List FileH) ≠ [] ∧ jsTrim "acme" ≠ "" ∧
    ((fun _ : FileH =>
        (Except.ok ⟨"ok", 7, some []⟩ : Except UploadFailure UploadResponse))
      ⟨0, "a.pdf"⟩ =
      (Except.ok ⟨"ok", 7, some []⟩ : Except UploadFailure UploadResponse)) ∧
    ({ file := ⟨0, "a.pdf"⟩, status := Status.success,
        message := some ("Processed successfully! " ++ toString (7 : Nat)
          ++ " sections analyzed."),
        chunksCreated := some 7 } : FileUploadStatus) ∈
      (onDrop "acme" ⟨[], none, ""⟩ [⟨0, "a.pdf"⟩]
        (fun _ => Except.ok ⟨"ok", 7, some []⟩)).state.files := by
  refine ⟨by decide, by decide, rfl, ?_⟩
  exact (fallback_results_success "acme" ⟨[], none, ""⟩ [⟨0, "a.pdf"⟩] _
    ⟨0, "a.pdf"⟩ ⟨"ok", 7, some []⟩ (by decide) (by decide) (by decide)
    (by decide) (by decide) rfl (Or.inr rfl)).2

/-- C8: `handleSubmit` with a question that is blank after trimming issues no
request and changes nothing (silent no-op); with a non-blank question but no
bound workspace (`getNamespace()` null, or the JS-falsy empty string) it
issues no request and only sets the missing-workspace error message. -/
theorem query_blank_or_unbound_no_request (st : QueryState)
    (store : Option String)
    (net : String → String → Nat → Except QueryFailure QueryResponse) :
    (jsTrim st.query = "" → handleSubmit st store net = (st, [])) ∧
    (jsTrim st.query ≠ "" →
      (getNamespace store = none ∨ getNamespace store = some "") →
      handleSubmit st store net =
        ({ st with
            error := "Please upload documents first to set a workspace name." },
          [])) := by
  constructor
  · intro h
    simp [handleSubmit, h]
  · intro h hns
    rcases hns with hn | hn
    · simp only [getNamespace] at hn
      simp [handleSubmit, h, hn, getNamespace]
    · simp only [getNamespace] at hn
      simp [handleSubmit, h, hn, getNamespace]

/-- C8 witness: a whitespace-only question is a silent no-op; a real question
with no stored workspace produces only the error message. -/
theorem query_blank_or_unbound_no_request_witness :
    jsTrim "   " = "" ∧
    handleSubmit ⟨"   ", "a", [], false, ""⟩ (some "acme")
        (fun _ _ _ => Except.error ⟨none, none⟩) =
      (⟨"   ", "a", [], false, ""⟩, []) ∧
    jsTrim "what is the term?" ≠ "" ∧
    handleSubmit ⟨"what is the term?", "", [], false, ""⟩ none
        (fun _ _ _ => Except.error ⟨none, none⟩) =
      (⟨"what is the term?", "", [], false,
          "Please upload documents first to set a workspace name."⟩, []) := by
  refine ⟨by decide, ?_, by decide, ?_⟩
  · exact (query_blank_or_unbound_no_request ⟨"   ", "a", [], false, ""⟩
      (some "acme") (fun _ _ _ => Except.error ⟨none, none⟩)).1 (by decide)
  · exact (query_blank_or_unbound_no_request ⟨"what is the term?", "", [], false, ""⟩
      none (fun _ _ _ => Except.error ⟨none, none⟩)).2 (by decide) (Or.inl rfl)

/-- C9: with a non-blank question and a bound non-empty workspace,
`handleSubmit` issues exactly one query request carrying the question, the
workspace as namespace, and the fixed cap `top_k = 10`; on success the
result is replaced wholesale with the answer and sources of the response, whose
order and count are exactly those of the response. -/
theorem query_single_request_and_replace (st : QueryState)
    (store : Option String) (ns : String) (r : QueryResponse)
    (net : String → String → Nat → Except QueryFailure QueryResponse)
    (hq : jsTrim st.query ≠ "") (hns : getNamespace store = some ns)
    (hne : ns ≠ "") (hr : net st.query ns topK = Except.ok r) :
    topK = 10 ∧
    (handleSubmit st store net).2 = [QEvent.request st.query ns 10] ∧
    (handleSubmit st store net).1 =
      { st with
          answer := r.answer, sources := r.sources, error := "",
          loading := false } ∧
    (handleSubmit st store net).1.sources = r.sources ∧
    (handleSubmit st store net).1.sources.length = r.sources.length := by
  have hmain : handleSubmit st store net =
      ({ st with
          answer := r.answer, sources := r.sources, error := "",
          loading := false },
        [QEvent.request st.query ns topK]) := by
    simp only [getNamespace] at hns
    simp [handleSubmit, hq, hns, hne, hr, getNamespace]
  refine ⟨rfl, ?_, ?_, ?_, ?_⟩ <;> rw [hmain] <;> rfl

/-- C9 witness: question "what is the term?" with workspace "acme" and a
response carrying two ranked sources. -/
theorem query_single_request_and_replace_witness :
    jsTrim "what is the term?" ≠ "" ∧
    getNamespace (some "acme") = some "acme" ∧ "acme" ≠ "" ∧
    (handleSubmit ⟨"what is the term?", "", [], true, ""⟩ (some "acme")
      (fun _ _ _ => Except.ok ⟨"ans",
        [⟨1, "doc1", some 2, "p1", "e1"⟩, ⟨2, "doc2", none, "p2", "e2"⟩]⟩)).2 =
      [QEvent.request "what is the term?" "acme" 10] ∧
    (handleSubmit ⟨"what is the term?", "", [], true, ""⟩ (some "acme")
      (fun _ _ _ => Except.ok ⟨"ans",
        [⟨1, "doc1", some 2, "p1", "e1"⟩, ⟨2, "doc2", none, "p2", "e2"⟩]⟩)).1.sources =
      [⟨1, "doc1", some 2, "p1", "e1"⟩, ⟨2, "doc2", none, "p2", "e2"⟩] ∧
    (handleSubmit ⟨"what is the term?", "", [], true, ""⟩ (some "acme")
      (fun _ _ _ => Except.ok ⟨"ans",
        [⟨1, "doc1", some 2, "p1", "e1"⟩, ⟨2, "doc2", none, "p2", "e2"⟩]⟩)).1.sources.length =
      2 := by
  refine ⟨by decide, rfl, by decide, ?_, ?_, ?_⟩
  · exact (query_single_request_and_replace ⟨"what is the term?", "", [], true, ""⟩
      (some "acme") "acme" ⟨"ans",
        [⟨1, "doc1", some 2, "p1", "e1"⟩, ⟨2, "doc2", none, "p2", "e2"⟩]⟩
      _ (by decide) rfl (by decide) rfl).2.1
  · exact (query_single_request_and_replace ⟨"what is the term?", "", [], true, ""⟩
      (some "acme") "acme" ⟨"ans",
        [⟨1, "doc1", some 2, "p1", "e1"⟩, ⟨2, "doc2", none, "p2", "e2"⟩]⟩
      _ (by decide) rfl (by decide) rfl).2.2.2.1
  · exact (query_single_request_and_replace ⟨"what is the term?", "", [], true, ""⟩
      (some "acme") "acme" ⟨"ans",
        [⟨1, "doc1", some 2, "p1", "e1"⟩, ⟨2, "doc2", none, "p2", "e2"⟩]⟩
      _ (by decide) rfl (by decide) rfl).2.2.2.2

end ContractRag

